import Mathlib

/-!
# Work item type controller of fabric8-wit

A shallow embedding of `controller/workitemtype.go`: the actions Create and
List of `WorkitemtypeController`, the conversion of work item types from the
model to the wire representation and the conversion of field types in both
directions.

Conventions of the embedding.

* A Go pointer is an `Option`; dereferencing `none` is a panic.
* A Go function returning `(value, error)` is a `Go` result: `val v` for
  `(v, nil)`, `err p e` for `(p, e)` where `p` is what stands in the value
  position (`none` for `nil`), and `panic` for a run-time panic.
* A Go struct field named `Type` is written `Type_`.
* A Go map is an association list. A `range` over a map visits the entries in
  an unspecified order; the embedding visits them in list order, and every
  statement about maps quantifies over all lists, hence over all orders.
* The handlers write to the database and to the HTTP response. Both are
  explicit: a run of a handler yields the list of events it caused, in order,
  whether it panicked, and the database it leaves behind.
* The packages that the controller calls (`workitem`, `space`, `login`,
  `application`, `jsonapi`, `rest`, `app`) are declared outside the controller
  file. Their constants, variables and repositories are fields of `Env` and
  `Repo`, so that every general theorem holds for all their values; the helper
  functions whose behaviour the statements need are definitions marked as
  modelled.
-/

namespace Wit

/-! ## Basic values -/

/-- A `uuid.UUID`, represented by its canonical string form. -/
structure UUID where
  hex : String
deriving DecidableEq, Repr

/-- The method `uuid.UUID.String`. -/
def UUID.String (u : UUID) : String := u.hex

/-- A Go `error` value. `unauthorized` and `forbidden` are the values built by
`errors.NewUnauthorizedError` and `errors.NewForbiddenError`, `msg` is any
other error (`fmt.Errorf`, errors of the collaborators), `wrapped` is
`errs.Wrap(cause, text)`. -/
inductive GoError where
  | unauthorized (text : String)
  | forbidden (text : String)
  | msg (text : String)
  | wrapped (text : String) (cause : GoError)
deriving DecidableEq, Repr

/-- The call `errs.WithStack(err)`: it attaches a stack trace and keeps the
error. -/
def WithStack (err : GoError) : GoError := err

/-- The call `errs.Wrap(err, text)`. -/
def Wrap (err : GoError) (text : String) : GoError := GoError.wrapped text err

/-- A Go value of type `interface{}` as it is found in the `values` of an enum
field type. -/
inductive Value where
  | null
  | bool (b : Bool)
  | num (n : Int)
  | str (s : String)
deriving DecidableEq, Repr

/-- The result of a Go function with the result list `(T, error)`. -/
inductive Go (α : Type) where
  | val (v : α)
  | err (inValuePosition : Option α) (e : GoError)
  | panic
deriving DecidableEq, Repr

/-- The HTTP request as far as the controller uses it: to build absolute
URLs. -/
structure Request where
  host : String
deriving DecidableEq, Repr

/-! ## Package workitem -/

namespace workitem

/-- The Go type `workitem.Kind`, a string type: the controller converts it with
`string(...)`. -/
structure Kind where
  name : String
deriving DecidableEq, Repr

/-- Modelled from the spec: the constant `workitem.KindList` is declared outside
the controller file; the kind of list field types is written `list` on the
wire. -/
def KindList : Kind := ⟨"list"⟩

/-- Modelled from the spec: the constant `workitem.KindEnum` is declared outside
the controller file; the kind of enum field types is written `enum` on the wire
(`"kind":"enum"` in the spec's example). -/
def KindEnum : Kind := ⟨"enum"⟩

/-- The struct `workitem.SimpleType`: a kind tag only. -/
structure SimpleType where
  Kind : workitem.Kind
deriving DecidableEq, Repr

/-- The struct `workitem.ListType`, built in the controller as
`ListType{SimpleType{kind}, SimpleType{componentType}}`. -/
structure ListType where
  SimpleType : workitem.SimpleType
  ComponentType : workitem.SimpleType
deriving DecidableEq, Repr

/-- The struct `workitem.EnumType`, built in the controller as
`EnumType{SimpleType{kind}, baseType, converted}`. -/
structure EnumType where
  SimpleType : workitem.SimpleType
  BaseType : workitem.SimpleType
  Values : List Value
deriving DecidableEq, Repr

/-- The interface `workitem.FieldType` with its closed set of
implementations. -/
inductive FieldType where
  | simple (t : SimpleType)
  | list (t : ListType)
  | enum (t : EnumType)
deriving DecidableEq, Repr

/-- The method `GetKind` of `SimpleType`. -/
def SimpleType.GetKind (t : SimpleType) : workitem.Kind := t.Kind

/-- The method `GetKind` of the interface: `ListType` and `EnumType` embed a
`SimpleType` and inherit its method. -/
def FieldType.GetKind : FieldType → Kind
  | .simple t => t.GetKind
  | .list t => t.SimpleType.GetKind
  | .enum t => t.SimpleType.GetKind

/-- The struct `workitem.FieldDefinition`. -/
structure FieldDefinition where
  Required : Bool
  Label : String
  Description : String
  Type_ : FieldType
deriving DecidableEq, Repr

/-- The struct `workitem.WorkItemType`, with the fields the controller
reads. Times are instants (`UTC()` does not change them). -/
structure WorkItemType where
  ID : UUID
  SpaceID : UUID
  Name : String
  Description : Option String
  Icon : String
  Version : Int
  CreatedAt : Int
  UpdatedAt : Int
  Fields : List (String × FieldDefinition)
deriving DecidableEq, Repr

end workitem

/-- The struct `space.Space`, with the field the controller reads. -/
structure Space where
  ID : UUID
  OwnerID : UUID
deriving DecidableEq, Repr

/-! ## What the controller is given -/

/-- The constants, tables and helper functions that the controller uses and
that are declared outside the controller file. -/
structure Env where
  /-- the names of the simple kinds known to `workitem.ConvertStringToKind` -/
  simpleKinds : List String
  /-- the method `ConvertToModel` of the interface `workitem.FieldType` -/
  ConvertToModel : workitem.FieldType → Value → Except GoError Value
  /-- the variables `workitem.SystemPlannerItem` and so on -/
  SystemPlannerItem : UUID
  SystemScenario : UUID
  SystemFundamental : UUID
  SystemPapercuts : UUID
  SystemExperience : UUID
  SystemValueProposition : UUID
  SystemFeature : UUID
  SystemBug : UUID
  SystemTask : UUID
  /-- the variable `space.SystemSpace` -/
  SystemSpace : UUID
  /-- the function `parseLimit` of the controller package: start offset (a
  pointer) and limit -/
  parseLimit : Option String → Except GoError (Option Int × Int)
  /-- the function `rest.AbsoluteURL` -/
  AbsoluteURL : Request → String → String
  /-- the function `app.SpaceHref` -/
  SpaceHref : String → String
  /-- the function `app.WorkitemtypeHref` -/
  WorkitemtypeHref : UUID → Option UUID → String
  /-- the decision of `ctx.ConditionalEntities`: `true` when the request's
  cache validators match the entities, so that the answer is Not Modified and
  the callback is not run -/
  notModified : Request → List workitem.WorkItemType → Bool

namespace workitem

/-- Modelled from the spec: `workitem.ConvertStringToKind` is declared outside
the controller file. The kinds form a closed set (simple kinds, list, enum), a
kind is the tag written on the wire, and unknown kind strings fail with a
conversion error. -/
def ConvertStringToKind (env : Env) (k : String) : Except GoError Kind :=
  if k = KindList.name ∨ k = KindEnum.name ∨ k ∈ env.simpleKinds then
    .ok ⟨k⟩
  else
    .error (.msg ("kind '" ++ k ++ "' is not a simple type"))

/-- Modelled from the spec: `workitem.ConvertAnyToKind` is declared outside the
controller file. It converts a value that holds a kind string, and fails on
every other value. -/
def ConvertAnyToKind (env : Env) (any : Value) : Except GoError Kind :=
  match any with
  | .str k => ConvertStringToKind env k
  | _ => .error (.msg "kind is not a string value")

/-- Modelled from the spec: the method `Kind.IsSimpleType` is declared outside
the controller file. A kind is simple when it is neither list nor enum. -/
def Kind.IsSimpleType (k : Kind) : Bool :=
  k != KindEnum && k != KindList

/-- Modelled from the spec: `workitem.ConvertList` is declared outside the
controller file. It converts element by element, in order, with the given
converter, and fails if any element fails. -/
def ConvertList (converter : FieldType → Value → Except GoError Value)
    (componentType : FieldType) : List Value → Except GoError (List Value)
  | [] => .ok []
  | element :: rest =>
    match converter componentType element with
    | .error e => .error (.wrapped "error converting list value" e)
    | .ok c =>
      match ConvertList converter componentType rest with
      | .error e => .error e
      | .ok cs => .ok (c :: cs)

end workitem

/-! ## Package app: the wire representation -/

namespace app

/-- The struct `app.FieldType`. -/
structure FieldType where
  Kind : String
  ComponentType : Option String
  BaseType : Option String
  Values : List Value
deriving DecidableEq, Repr

/-- The struct `app.FieldDefinition`. -/
structure FieldDefinition where
  Required : Bool
  Label : String
  Description : String
  Type_ : Option FieldType
deriving DecidableEq, Repr

/-- The struct `app.GenericData`. -/
structure GenericData where
  ID : Option String
  Type_ : Option String
deriving DecidableEq, Repr

/-- The struct `app.RelationGenericList`. -/
structure RelationGenericList where
  Data : List GenericData
deriving DecidableEq, Repr

/-- The struct `app.RelationSpacesData`. -/
structure RelationSpacesData where
  ID : Option UUID
  Type_ : Option String
deriving DecidableEq, Repr

/-- The struct `app.RelationSpaces`. -/
structure RelationSpaces where
  Data : Option RelationSpacesData
  Self : Option String
deriving DecidableEq, Repr

/-- The struct `app.WorkItemTypeRelationships`. -/
structure WorkItemTypeRelationships where
  Space : Option RelationSpaces
  GuidedChildTypes : Option RelationGenericList
deriving DecidableEq, Repr

/-- The struct `app.WorkItemTypeAttributes`. `Version` is a pointer in Go; the
embedding holds the value found behind it when the response is written. -/
structure WorkItemTypeAttributes where
  CreatedAt : Option Int
  UpdatedAt : Option Int
  Version : Option Int
  Description : Option String
  Icon : String
  Name : String
  ExtendedTypeName : Option UUID
  Fields : List (String × Option FieldDefinition)
deriving DecidableEq, Repr

/-- The struct `app.WorkItemTypeData`. -/
structure WorkItemTypeData where
  Type_ : String
  ID : Option UUID
  Attributes : Option WorkItemTypeAttributes
  Relationships : Option WorkItemTypeRelationships
deriving DecidableEq, Repr

/-- The struct `app.CreateWorkitemtypePayload`. -/
structure CreateWorkitemtypePayload where
  Data : Option WorkItemTypeData
deriving DecidableEq, Repr

/-- Modelled from the spec: `app.NewSpaceRelation` is declared outside the
controller file. It builds the space relationship of a response: the space ID
and the link to the space. -/
def NewSpaceRelation (spaceID : UUID) (spaceURL : String) : RelationSpaces :=
  { Data := some { ID := some spaceID, Type_ := some "spaces" }, Self := some spaceURL }

end app

/-! ## The collaborators of the handlers -/

/-- The contents of the database. -/
structure DB where
  spaces : List Space
  workItemTypes : List workitem.WorkItemType
deriving DecidableEq, Repr

/-- The arguments of `WorkItemTypes().Create`, in the order of the call. -/
structure CreateArgs where
  spaceID : UUID
  id : Option UUID
  extendedTypeName : Option UUID
  name : String
  description : Option String
  icon : String
  fields : List (String × workitem.FieldDefinition)
deriving DecidableEq, Repr

/-- The repositories reached through `application.Application`, declared
outside the controller file: `Spaces().Load`, `WorkItemTypes().Create` and
`WorkItemTypes().List` (space, start offset, limit). -/
structure Repo where
  SpacesLoad : DB → UUID → Except GoError Space
  WorkItemTypesCreate : DB → CreateArgs → Except GoError (workitem.WorkItemType × DB)
  WorkItemTypesList : DB → UUID → Option Int → Int → Except GoError (List workitem.WorkItemType)

/-- What a handler writes as its HTTP response. `Error e` is the response
written by `jsonapi.JSONErrorResponse(ctx, e)`. -/
inductive Response where
  | OK (data : List app.WorkItemTypeData)
  | Created (wit : app.WorkItemTypeData) (location : String)
  | NotModified
  | Error (e : GoError)
deriving DecidableEq, Repr

/-- What a handler does that can be seen from outside, one event per call. -/
inductive Event where
  | responded (r : Response)
  | spaceLoaded (spaceID : UUID)
  | listCalled (spaceID : UUID) (start : Option Int) (limit : Int)
  | createCalled (args : CreateArgs)
deriving DecidableEq, Repr

/-- How a run of a handler ends. -/
inductive Outcome where
  | returned
  | panicked
deriving DecidableEq, Repr

/-- A run of a handler: its events in order, how it ended and the database
afterwards. -/
structure Run where
  events : List Event
  outcome : Outcome
  db : DB
deriving DecidableEq, Repr

/-- Modelled from the spec: `application.Transactional` is declared outside the
controller file. One request is one transaction, committed on success and
rolled back otherwise. The closures of this controller return what the response
writer returns, which is nil once a response is written, so that a run is
rolled back only when it panics. -/
def Transactional (db : DB) (todo : DB → Run) : Run :=
  let r := todo db
  match r.outcome with
  | .returned => r
  | .panicked => { r with db := db }

/-- The method `Error` of a Go error: its text. -/
def GoError.Error : GoError → String
  | .unauthorized text => text
  | .forbidden text => text
  | .msg text => text
  | .wrapped text cause => text ++ ": " ++ cause.Error

/-! ## controller/workitemtype.go -/

/-- The constant `APIWorkItemTypes`. -/
def APIWorkItemTypes : String := "workitemtypes"

/-- The function `convertFieldTypeFromModel`. -/
def convertFieldTypeFromModel (t : workitem.FieldType) : app.FieldType :=
  let result : app.FieldType :=
    { Kind := t.GetKind.name, ComponentType := none, BaseType := none, Values := [] }
  match t with
  | .list t2 => { result with ComponentType := some t2.ComponentType.GetKind.name }
  | .enum t2 => { result with BaseType := some t2.BaseType.GetKind.name, Values := t2.Values }
  | .simple _ => result

/-- The function `convertFieldTypeToModel`. -/
def convertFieldTypeToModel (env : Env) (t : app.FieldType) : Go workitem.FieldType :=
  match workitem.ConvertStringToKind env t.Kind with
  | .error err => .err none (WithStack err)
  | .ok kind =>
    if kind = workitem.KindList then
      match t.ComponentType with
      | none => .panic
      | some ct =>
        match workitem.ConvertAnyToKind env (.str ct) with
        | .error err => .err none (WithStack err)
        | .ok componentType =>
          if !componentType.IsSimpleType then
            .err none (.msg "Component type is not list type: *workitem.Kind")
          else
            .val (.list ⟨⟨kind⟩, ⟨componentType⟩⟩)
    else if kind = workitem.KindEnum then
      match t.BaseType with
      | none => .panic
      | some b =>
        match workitem.ConvertAnyToKind env (.str b) with
        | .error err => .err none (WithStack err)
        | .ok bt =>
          if !bt.IsSimpleType then
            .err none (.msg "baseType type is not list type: *workitem.Kind")
          else
            let baseType : workitem.SimpleType := ⟨bt⟩
            let values := t.Values
            match workitem.ConvertList (fun ft element => env.ConvertToModel ft element)
                (.simple baseType) values with
            | .error err => .err none (WithStack err)
            | .ok converted => .val (.enum ⟨⟨kind⟩, baseType, converted⟩)
    else
      .val (.simple ⟨kind⟩)

/-- The loop of `ConvertFieldDefinitionsToModel`, with the map built so far. -/
def ConvertFieldDefinitionsToModel.loop (env : Env) :
    List (String × app.FieldDefinition) → List (String × workitem.FieldDefinition) →
      Go (List (String × workitem.FieldDefinition))
  | [], modelFields => .val modelFields
  | (field, definition) :: rest, modelFields =>
    match definition.Type_ with
    | none => .panic
    | some ty =>
      match convertFieldTypeToModel env ty with
      | .panic => .panic
      | .err _ err => .err none (WithStack err)
      | .val ct =>
        let converted : workitem.FieldDefinition :=
          { Label := definition.Label
            Description := definition.Description
            Required := definition.Required
            Type_ := ct }
        ConvertFieldDefinitionsToModel.loop env rest (modelFields ++ [(field, converted)])

/-- The function `ConvertFieldDefinitionsToModel`. -/
def ConvertFieldDefinitionsToModel (env : Env) (fields : List (String × app.FieldDefinition)) :
    Go (List (String × workitem.FieldDefinition)) :=
  ConvertFieldDefinitionsToModel.loop env fields []

/-- The closure `getGuidedChildTypes` of `ConvertWorkItemTypeFromModel`. -/
def getGuidedChildTypes (witIDs : List UUID) : app.RelationGenericList :=
  { Data := witIDs.map fun id => { ID := some id.String, Type_ := some APIWorkItemTypes } }

/-- The `switch t.ID` of `ConvertWorkItemTypeFromModel`: the first clause with
a matching case decides. -/
def guidedChildTypesFor (env : Env) (id : UUID) : Option app.RelationGenericList :=
  if id = env.SystemScenario ∨ id = env.SystemFundamental ∨ id = env.SystemPapercuts then
    some (getGuidedChildTypes [env.SystemExperience, env.SystemValueProposition])
  else if id = env.SystemExperience ∨ id = env.SystemValueProposition then
    some (getGuidedChildTypes [env.SystemFeature, env.SystemBug])
  else if id = env.SystemFeature then
    some (getGuidedChildTypes [env.SystemTask, env.SystemBug])
  else if id = env.SystemBug then
    some (getGuidedChildTypes [env.SystemTask])
  else
    none

/-- The function `ConvertWorkItemTypeFromModel`. The keys of a Go map are
distinct, so the loop over `t.Fields` yields one entry per entry. -/
def ConvertWorkItemTypeFromModel (env : Env) (request : Request) (t : workitem.WorkItemType) :
    app.WorkItemTypeData :=
  let spaceSelfURL := env.AbsoluteURL request (env.SpaceHref t.SpaceID.String)
  { Type_ := "workitemtypes"
    ID := some t.ID
    Attributes := some
      { CreatedAt := some t.CreatedAt
        UpdatedAt := some t.UpdatedAt
        Version := some t.Version
        Description := t.Description
        Icon := t.Icon
        Name := t.Name
        ExtendedTypeName := none
        Fields := t.Fields.map fun (name, d) =>
          (name, some
            { Required := d.Required
              Label := d.Label
              Description := d.Description
              Type_ := some (convertFieldTypeFromModel d.Type_) }) }
    Relationships := some
      { Space := some (app.NewSpaceRelation t.SpaceID spaceSelfURL)
        GuidedChildTypes := guidedChildTypesFor env t.ID } }

/-- The context of the create action. `ContextIdentity` is what
`login.ContextIdentity(ctx)` returns: a pointer to the identity and an
error. -/
structure CreateWorkitemtypeContext where
  Request : Request
  SpaceID : UUID
  Payload : app.CreateWorkitemtypePayload
  ContextIdentity : Option UUID × Option GoError

/-- The loop `for key, fd := range ... { fields[key] = *fd }` of Create;
`none` is the panic of dereferencing a nil entry. -/
def copyFields : List (String × Option app.FieldDefinition) →
    Option (List (String × app.FieldDefinition))
  | [] => some []
  | (key, fd) :: rest =>
    match fd with
    | none => none
    | some d =>
      match copyFields rest with
      | none => none
      | some fields => some ((key, d) :: fields)

/-- The closure that `Create` hands to `application.Transactional`. -/
def WorkitemtypeController.Create.todo (env : Env) (repo : Repo)
    (ctx : CreateWorkitemtypeContext) (currentUserIdentityID : Option UUID) (db : DB) : Run :=
  let loaded := Event.spaceLoaded ctx.SpaceID
  match repo.SpacesLoad db ctx.SpaceID with
  | .error err => ⟨[loaded, .responded (.Error err)], .returned, db⟩
  | .ok space =>
    match currentUserIdentityID with
    | none => ⟨[loaded], .panicked, db⟩
    | some uid =>
      if uid ≠ space.OwnerID then
        ⟨[loaded, .responded (.Error (.forbidden "user is not the space owner"))], .returned, db⟩
      else
        match ctx.Payload.Data with
        | none => ⟨[loaded], .panicked, db⟩
        | some data =>
        match data.Attributes with
        | none => ⟨[loaded], .panicked, db⟩
        | some attributes =>
        match copyFields attributes.Fields with
        | none => ⟨[loaded], .panicked, db⟩
        | some fields =>
          let spaceSelfURL := env.AbsoluteURL ctx.Request (env.SpaceHref ctx.SpaceID.String)
          let relationships := data.Relationships.map fun r =>
            { r with Space := some (app.NewSpaceRelation ctx.SpaceID spaceSelfURL) }
          match ConvertFieldDefinitionsToModel env fields with
          | .panic => ⟨[loaded], .panicked, db⟩
          | .err _ err => ⟨[loaded, .responded (.Error err)], .returned, db⟩
          | .val modelFields =>
            match relationships.bind (·.Space) |>.bind (·.Data) |>.bind (·.ID) with
            | none => ⟨[loaded], .panicked, db⟩
            | some spaceID =>
              let args : CreateArgs :=
                { spaceID := spaceID
                  id := data.ID
                  extendedTypeName := attributes.ExtendedTypeName
                  name := attributes.Name
                  description := attributes.Description
                  icon := attributes.Icon
                  fields := modelFields }
              match repo.WorkItemTypesCreate db args with
              | .error err =>
                ⟨[loaded, .createCalled args, .responded (.Error err)], .returned, db⟩
              | .ok (witTypeModel, db2) =>
                let witData := ConvertWorkItemTypeFromModel env ctx.Request witTypeModel
                let location := env.WorkitemtypeHref spaceID witData.ID
                ⟨[loaded, .createCalled args, .responded (.Created witData location)],
                  .returned, db2⟩

/-- The method `WorkitemtypeController.Create`. After the Unauthorized response
is written the method does not return: it goes on to the transaction. -/
def WorkitemtypeController.Create (env : Env) (repo : Repo) (ctx : CreateWorkitemtypeContext)
    (db : DB) : Run :=
  let currentUserIdentityID := ctx.ContextIdentity.1
  let err := ctx.ContextIdentity.2
  let first : List Event :=
    match err with
    | some e => [.responded (.Error (.unauthorized e.Error))]
    | none => []
  let r := Transactional db (WorkitemtypeController.Create.todo env repo ctx currentUserIdentityID)
  { r with events := first ++ r.events }

/-- The context of the list action. -/
structure ListWorkitemtypeContext where
  Request : Request
  SpaceID : UUID
  Page : Option String

/-- The loop of `List` that converts the models,
`for index, value := range witModels`, as the response shows its result. The
loop variable `value` is one variable for the whole loop (the range loop of Go
before version 1.22), `ConvertWorkItemTypeFromModel` is given `&value`, and
every converted entry keeps the pointer `&t.Version` into that variable: when
the response is written, every entry shows the version that the variable holds
after the last iteration. All other attributes are copied during the
iteration. -/
def WorkitemtypeController.List.convert (env : Env) (request : Request)
    (witModels : List workitem.WorkItemType) : List app.WorkItemTypeData :=
  witModels.map fun value =>
    let wit := ConvertWorkItemTypeFromModel env request value
    { wit with
      Attributes := wit.Attributes.map fun a =>
        { a with Version := witModels.getLast?.map (·.Version) } }

/-- The closure that `List` hands to `application.Transactional`. -/
def WorkitemtypeController.List.todo (env : Env) (repo : Repo) (ctx : ListWorkitemtypeContext)
    (start : Option Int) (limit : Int) (db : DB) : Run :=
  let first := Event.listCalled ctx.SpaceID start limit
  match repo.WorkItemTypesList db ctx.SpaceID start limit with
  | .error err =>
    ⟨[first, .responded (.Error (Wrap err "Error listing work item types"))], .returned, db⟩
  | .ok witModelsOrig =>
    let witModels := witModelsOrig.filter fun wit => wit.ID ≠ env.SystemPlannerItem
    if env.notModified ctx.Request witModels then
      ⟨[first, .responded .NotModified], .returned, db⟩
    else if witModels.length = 0 then
      let second := Event.listCalled env.SystemSpace start limit
      match repo.WorkItemTypesList db env.SystemSpace start limit with
      | .error err =>
        ⟨[first, second, .responded (.Error (Wrap err "Error listing work item types"))],
          .returned, db⟩
      | .ok fallback =>
        ⟨[first, second,
            .responded (.OK (WorkitemtypeController.List.convert env ctx.Request fallback))],
          .returned, db⟩
    else
      ⟨[first, .responded (.OK (WorkitemtypeController.List.convert env ctx.Request witModels))],
        .returned, db⟩

/-- The method `WorkitemtypeController.List`. -/
def WorkitemtypeController.List (env : Env) (repo : Repo) (ctx : ListWorkitemtypeContext)
    (db : DB) : Run :=
  match env.parseLimit ctx.Page with
  | .error err => ⟨[.responded (.Error (Wrap err "Could not parse paging"))], .returned, db⟩
  | .ok (start, limit) =>
    Transactional db (WorkitemtypeController.List.todo env repo ctx start limit)

/-- The guided child types in the conversion of a work item type: what
`Relationships.GuidedChildTypes` holds, `none` for nil. -/
def guidedChildTypesOf (env : Env) (request : Request) (t : workitem.WorkItemType) :
    Option app.RelationGenericList :=
  (ConvertWorkItemTypeFromModel env request t).Relationships.bind (·.GuidedChildTypes)

/-- The type identifiers named in the cases of the `switch` of
`ConvertWorkItemTypeFromModel`, in the order of the source. -/
def guidedParents (env : Env) : List UUID :=
  [env.SystemScenario, env.SystemFundamental, env.SystemPapercuts, env.SystemExperience,
    env.SystemValueProposition, env.SystemFeature, env.SystemBug]

/-- One entry of a guided child type list: the identifier as a string and the
type `workitemtypes`. -/
def guidedChild (id : UUID) : app.GenericData :=
  { ID := some id.String, Type_ := some "workitemtypes" }

/-! ## Conditions used in the statements -/

/-- A value is valid for a simple base type when the converter of that type
accepts it: the conversion of the value succeeds. -/
def validValue (env : Env) (base : workitem.SimpleType) (v : Value) : Bool :=
  match env.ConvertToModel (.simple base) v with
  | .ok _ => true
  | .error _ => false

/-- A valid wire field type: a simple kind; or kind list with a simple component
type; or kind enum with a simple base type and values valid for it. -/
def app.FieldType.valid (env : Env) (w : app.FieldType) : Bool :=
  match workitem.ConvertStringToKind env w.Kind with
  | .error _ => false
  | .ok kind =>
    if kind = workitem.KindList then
      match w.ComponentType with
      | none => false
      | some ct =>
        match workitem.ConvertStringToKind env ct with
        | .ok k => k.IsSimpleType
        | .error _ => false
    else if kind = workitem.KindEnum then
      match w.BaseType with
      | none => false
      | some b =>
        match workitem.ConvertStringToKind env b with
        | .ok k => k.IsSimpleType && w.Values.all (validValue env ⟨k⟩)
        | .error _ => false
    else
      true

/-- A wire field type of kind list whose component type, or of kind enum whose
base type, names a kind that is not simple: list or enum. -/
def app.FieldType.namesNonSimple (w : app.FieldType) : Bool :=
  (w.Kind == workitem.KindList.name &&
      (w.ComponentType == some workitem.KindList.name ||
        w.ComponentType == some workitem.KindEnum.name)) ||
    (w.Kind == workitem.KindEnum.name &&
      (w.BaseType == some workitem.KindList.name ||
        w.BaseType == some workitem.KindEnum.name))

/-- A wire field type that names what its kind needs: a list names its
component type and an enum names its base type. -/
def app.FieldType.complete (w : app.FieldType) : Bool :=
  (w.Kind != workitem.KindList.name || w.ComponentType.isSome) &&
    (w.Kind != workitem.KindEnum.name || w.BaseType.isSome)

/-- A wire field definition that has a type, and a complete one. -/
def app.FieldDefinition.complete (d : app.FieldDefinition) : Bool :=
  match d.Type_ with
  | none => false
  | some w => w.complete

/-! ## Concrete values for the examples -/

/-- A converter for the examples: a string field takes strings and an integer
field takes numbers, each as it is; everything else is refused. -/
def sampleConvertToModel : workitem.FieldType → Value → Except GoError Value
  | .simple ⟨⟨"string"⟩⟩, .str s => .ok (.str s)
  | .simple ⟨⟨"integer"⟩⟩, .num n => .ok (.num n)
  | _, _ => .error (.msg "value has the wrong type")

/-- An environment for the examples, with nine distinct built-in type
identifiers. -/
def sampleEnv : Env where
  simpleKinds := ["string", "integer"]
  ConvertToModel := sampleConvertToModel
  SystemPlannerItem := ⟨"00000000-0000-0000-0000-000000000001"⟩
  SystemScenario := ⟨"00000000-0000-0000-0000-000000000002"⟩
  SystemFundamental := ⟨"00000000-0000-0000-0000-000000000003"⟩
  SystemPapercuts := ⟨"00000000-0000-0000-0000-000000000004"⟩
  SystemExperience := ⟨"00000000-0000-0000-0000-000000000005"⟩
  SystemValueProposition := ⟨"00000000-0000-0000-0000-000000000006"⟩
  SystemFeature := ⟨"00000000-0000-0000-0000-000000000007"⟩
  SystemBug := ⟨"00000000-0000-0000-0000-000000000008"⟩
  SystemTask := ⟨"00000000-0000-0000-0000-000000000009"⟩
  SystemSpace := ⟨"00000000-0000-0000-0000-0000000000aa"⟩
  parseLimit := fun _ => .ok (some 0, 20)
  AbsoluteURL := fun r path => "https://" ++ r.host ++ path
  SpaceHref := fun id => "/api/spaces/" ++ id
  WorkitemtypeHref := fun spaceID _ => "/api/spaces/" ++ spaceID.String ++ "/workitemtypes"
  notModified := fun _ _ => false

/-- The request of the examples. -/
def sampleRequest : Request := ⟨"wit.example"⟩

/-- A space of the examples; its owner is `sampleOwner`. -/
def sampleSpaceID : UUID := ⟨"00000000-0000-0000-0000-0000000000b1"⟩

/-- The owner of the sample space. -/
def sampleOwner : UUID := ⟨"00000000-0000-0000-0000-0000000000c1"⟩

/-- An identity that does not own the sample space. -/
def sampleVisitor : UUID := ⟨"00000000-0000-0000-0000-0000000000c2"⟩

/-- A work item type with the given identifier, space and version, and no
fields. -/
def sampleType (id spaceID : UUID) (version : Int) : workitem.WorkItemType :=
  { ID := id, SpaceID := spaceID, Name := "t", Description := none, Icon := "fa",
    Version := version, CreatedAt := 0, UpdatedAt := 0, Fields := [] }

/-- A database for the examples: the sample space without types of its own, and
the system space with the planner item type and the bug type. -/
def sampleDB : DB where
  spaces := [⟨sampleSpaceID, sampleOwner⟩]
  workItemTypes :=
    [sampleType sampleEnv.SystemPlannerItem sampleEnv.SystemSpace 3,
     sampleType sampleEnv.SystemBug sampleEnv.SystemSpace 5]

/-- Repositories for the examples, reading and writing the lists of a `DB`;
paging is not applied. -/
def sampleRepo : Repo where
  SpacesLoad := fun db id =>
    match db.spaces.find? (fun s => s.ID = id) with
    | some s => .ok s
    | none => .error (.msg "space not found")
  WorkItemTypesCreate := fun db args =>
    let wit : workitem.WorkItemType :=
      { ID := args.id.getD ⟨"00000000-0000-0000-0000-0000000000d1"⟩
        SpaceID := args.spaceID, Name := args.name, Description := args.description
        Icon := args.icon, Version := 0, CreatedAt := 0, UpdatedAt := 0
        Fields := args.fields }
    .ok (wit, { db with workItemTypes := db.workItemTypes ++ [wit] })
  WorkItemTypesList := fun db spaceID _ _ =>
    .ok (db.workItemTypes.filter fun w => w.SpaceID = spaceID)

/-- A list request for the sample space. -/
def sampleListContext : ListWorkitemtypeContext :=
  { Request := sampleRequest, SpaceID := sampleSpaceID, Page := none }

/-- A create payload with the given fields and relationships. -/
def samplePayload (fields : List (String × Option app.FieldDefinition))
    (relationships : Option app.WorkItemTypeRelationships) : app.CreateWorkitemtypePayload :=
  { Data := some
      { Type_ := "workitemtypes", ID := none
        Attributes := some
          { CreatedAt := none, UpdatedAt := none, Version := none, Description := none
            Icon := "fa", Name := "epic", ExtendedTypeName := none, Fields := fields }
        Relationships := relationships } }

/-- A create request for the sample space by the given identity. -/
def sampleCreateContext (identity : Option UUID × Option GoError)
    (payload : app.CreateWorkitemtypePayload) : CreateWorkitemtypeContext :=
  { Request := sampleRequest, SpaceID := sampleSpaceID, Payload := payload,
    ContextIdentity := identity }

/-- A second database for the examples: the sample space has the planner item
type and two types of its own, with different versions. -/
def sampleDB2 : DB where
  spaces := [⟨sampleSpaceID, sampleOwner⟩]
  workItemTypes :=
    [sampleType sampleEnv.SystemPlannerItem sampleSpaceID 1,
     sampleType sampleEnv.SystemFeature sampleSpaceID 1,
     sampleType sampleEnv.SystemBug sampleSpaceID 2,
     sampleType sampleEnv.SystemTask sampleEnv.SystemSpace 7]

/-- A second converter for the examples: an integer field takes numbers as
they are and takes the string `1` for the number 1; everything else is
refused. The converter of the repository is declared outside the controller
file; this one stands for any converter that accepts a value in one form and
returns it in another. -/
def normalisingConvertToModel : workitem.FieldType → Value → Except GoError Value
  | .simple ⟨⟨"integer"⟩⟩, .num n => .ok (.num n)
  | .simple ⟨⟨"integer"⟩⟩, .str "1" => .ok (.num 1)
  | _, _ => .error (.msg "value has the wrong type")

/-- The sample environment with the second converter. -/
def normalisingEnv : Env :=
  { sampleEnv with ConvertToModel := normalisingConvertToModel }

/-! ## Theorems -/

/-- C1 (the code departs from the claim): listing the sample space, which has no
types of its own, answers OK with the types of the system space as they are
stored, and the planner item type is among them: the fallback list is not
filtered. -/
theorem C1_fallback_lists_planner_item :
    ∃ data,
      (WorkitemtypeController.List sampleEnv sampleRepo sampleListContext sampleDB).events =
        [.listCalled sampleSpaceID (some 0) 20,
         .listCalled sampleEnv.SystemSpace (some 0) 20,
         .responded (.OK data)] ∧
      ∃ d ∈ data, d.ID = some sampleEnv.SystemPlannerItem := by
  refine ⟨WorkitemtypeController.List.convert sampleEnv sampleRequest sampleDB.workItemTypes,
    by decide, ?_⟩
  exact ⟨_, List.mem_cons_self _ _, rfl⟩

/-- C2 (the code departs from the claim): a create request without an
authenticated identity gets the Unauthorized response written, and then Create
goes on: it loads the space and dereferences the nil identity pointer. -/
theorem C2_create_continues_after_unauthorized :
    WorkitemtypeController.Create sampleEnv sampleRepo
        (sampleCreateContext (none, some (.msg "missing token")) (samplePayload [] none))
        sampleDB =
      ⟨[.responded (.Error (.unauthorized "missing token")), .spaceLoaded sampleSpaceID],
        .panicked, sampleDB⟩ := by
  decide

/-- Whenever `login.ContextIdentity` returns an error, the events of Create
begin with the Unauthorized response followed by the load of the space. -/
theorem create_loads_space_after_unauthorized (env : Env) (repo : Repo)
    (ctx : CreateWorkitemtypeContext) (db : DB) (e : GoError)
    (herr : ctx.ContextIdentity.2 = some e) :
    ∃ rest, (WorkitemtypeController.Create env repo ctx db).events =
      .responded (.Error (.unauthorized e.Error)) :: .spaceLoaded ctx.SpaceID :: rest := by
  simp only [WorkitemtypeController.Create, herr, Transactional]
  unfold WorkitemtypeController.Create.todo
  simp only []
  repeat' split
  all_goals exact ⟨_, rfl⟩

/-- C3: when the identity is authenticated, the space exists and its owner is
another identity, Create answers Forbidden and does nothing else: the only
events are the load of the space and the Forbidden response,
`WorkItemTypes().Create` is not called, and the database is unchanged, whatever
the payload is. -/
theorem C3_non_owner_forbidden (env : Env) (repo : Repo) (ctx : CreateWorkitemtypeContext)
    (db : DB) (uid : UUID) (space : Space)
    (hid : ctx.ContextIdentity = (some uid, none))
    (hspace : repo.SpacesLoad db ctx.SpaceID = .ok space)
    (howner : space.OwnerID ≠ uid) :
    WorkitemtypeController.Create env repo ctx db =
        ⟨[.spaceLoaded ctx.SpaceID,
          .responded (.Error (.forbidden "user is not the space owner"))], .returned, db⟩ ∧
      (∀ args, Event.createCalled args ∉
        (WorkitemtypeController.Create env repo ctx db).events) ∧
      (WorkitemtypeController.Create env repo ctx db).db = db := by
  have hne : uid ≠ space.OwnerID := fun h => howner h.symm
  have h : WorkitemtypeController.Create env repo ctx db =
      ⟨[.spaceLoaded ctx.SpaceID,
        .responded (.Error (.forbidden "user is not the space owner"))], .returned, db⟩ := by
    simp [WorkitemtypeController.Create, Transactional, WorkitemtypeController.Create.todo,
      hid, hspace, hne]
  refine ⟨h, ?_, ?_⟩
  · intro args
    rw [h]
    simp
  · rw [h]

/-- C3, at a concrete request: the visitor asks to create a type in the sample
space with a field whose type has an unknown kind. -/
theorem C3_non_owner_forbidden_witness :
    WorkitemtypeController.Create sampleEnv sampleRepo
        (sampleCreateContext (some sampleVisitor, none)
          (samplePayload [("f", some ⟨true, "F", "", some ⟨"nonsense", none, none, []⟩⟩)] none))
        sampleDB =
        ⟨[.spaceLoaded sampleSpaceID,
          .responded (.Error (.forbidden "user is not the space owner"))],
          .returned, sampleDB⟩ ∧
      (∀ args, Event.createCalled args ∉
        (WorkitemtypeController.Create sampleEnv sampleRepo
          (sampleCreateContext (some sampleVisitor, none)
            (samplePayload [("f", some ⟨true, "F", "", some ⟨"nonsense", none, none, []⟩⟩)]
              none))
          sampleDB).events) ∧
      (WorkitemtypeController.Create sampleEnv sampleRepo
          (sampleCreateContext (some sampleVisitor, none)
            (samplePayload [("f", some ⟨true, "F", "", some ⟨"nonsense", none, none, []⟩⟩)]
              none))
          sampleDB).db = sampleDB :=
  C3_non_owner_forbidden sampleEnv sampleRepo _ sampleDB sampleVisitor
    ⟨sampleSpaceID, sampleOwner⟩ rfl rfl (by decide)

/-! ### Field types -/

/-- A kind string that `ConvertStringToKind` takes yields the kind of that
name. -/
theorem ConvertStringToKind_ok {env : Env} {s : String} {k : workitem.Kind}
    (h : workitem.ConvertStringToKind env s = .ok k) : k = ⟨s⟩ := by
  unfold workitem.ConvertStringToKind at h
  split at h
  · cases h; rfl
  · cases h

/-- The kind strings list and enum are known. -/
theorem ConvertStringToKind_list (env : Env) :
    workitem.ConvertStringToKind env "list" = .ok workitem.KindList := by
  simp [workitem.ConvertStringToKind, workitem.KindList]

/-- The kind string enum is known. -/
theorem ConvertStringToKind_enum (env : Env) :
    workitem.ConvertStringToKind env "enum" = .ok workitem.KindEnum := by
  simp [workitem.ConvertStringToKind, workitem.KindEnum]

/-- The list conversion succeeds exactly with the element-wise results, in
order. -/
theorem ConvertList_ok_iff (conv : workitem.FieldType → Value → Except GoError Value)
    (ft : workitem.FieldType) (vs cs : List Value) :
    workitem.ConvertList conv ft vs = .ok cs ↔
      List.Forall₂ (fun v c => conv ft v = .ok c) vs cs := by
  induction vs generalizing cs with
  | nil =>
    cases cs <;> simp [workitem.ConvertList]
  | cons v vs ih =>
    unfold workitem.ConvertList
    cases hv : conv ft v with
    | error e =>
      simp only []
      constructor
      · intro h; cases h
      · intro h
        cases h with
        | cons h1 _ => rw [hv] at h1; cases h1
    | ok c =>
      simp only []
      cases hr : workitem.ConvertList conv ft vs with
      | error e =>
        simp only []
        constructor
        · intro h; cases h
        · intro h
          cases h with
          | cons h1 h2 =>
            rw [(ih _).mpr h2] at hr
            cases hr
      | ok cs2 =>
        simp only []
        constructor
        · intro h
          cases h
          exact List.Forall₂.cons hv ((ih _).mp hr)
        · intro h
          cases h with
          | cons h1 h2 =>
            rw [hv] at h1
            cases h1
            rw [(ih _).mpr h2] at hr
            cases hr
            rfl

/-- The list conversion fails as soon as one element fails. -/
theorem ConvertList_error_of_mem (conv : workitem.FieldType → Value → Except GoError Value)
    (ft : workitem.FieldType) (vs : List Value) (v : Value) (e : GoError)
    (hv : v ∈ vs) (he : conv ft v = .error e) :
    ∃ e2, workitem.ConvertList conv ft vs = .error e2 := by
  cases h : workitem.ConvertList conv ft vs with
  | error e2 => exact ⟨e2, rfl⟩
  | ok cs =>
    exfalso
    have hf := (ConvertList_ok_iff conv ft vs cs).mp h
    clear h
    induction hf with
    | nil => cases hv
    | cons h1 _ ih =>
      rcases List.mem_cons.mp hv with rfl | hmem
      · rw [he] at h1; cases h1
      · exact ih hmem

/-- C6: when `ConvertStringToKind` refuses the kind string, the conversion
returns that error and nil, whatever component type, base type and values the
wire type carries; and a conversion that ends in the branch for simple types
has a kind string that `ConvertStringToKind` took. -/
theorem C6_unknown_kind_rejected (env : Env) :
    (∀ (kind : String) (e : GoError), workitem.ConvertStringToKind env kind = .error e →
      ∀ ct bt vs, convertFieldTypeToModel env ⟨kind, ct, bt, vs⟩ = .err none e) ∧
    (∀ (w : app.FieldType) (t : workitem.SimpleType),
      convertFieldTypeToModel env w = .val (.simple t) →
        workitem.ConvertStringToKind env w.Kind = .ok t.Kind) := by
  constructor
  · intro kind e h ct bt vs
    simp [convertFieldTypeToModel, h, WithStack]
  · intro w t h
    unfold convertFieldTypeToModel at h
    cases hk : workitem.ConvertStringToKind env w.Kind with
    | error e => simp [hk] at h
    | ok kind =>
      simp only [hk] at h
      split at h
      · split at h
        · cases h
        · split at h
          · cases h
          · split at h <;> cases h
      · split at h
        · split at h
          · cases h
          · split at h
            · cases h
            · split at h
              · cases h
              · split at h <;> cases h
        · cases h
          rfl

/-- C6, at the kind string nonsense, which is refused with list and enum
attributes present, and at the kind string string, which ends in the branch for
simple types. -/
theorem C6_unknown_kind_rejected_witness :
    convertFieldTypeToModel sampleEnv ⟨"nonsense", some "list", some "string", [.num 1]⟩ =
        .err none (.msg "kind 'nonsense' is not a simple type") ∧
      workitem.ConvertStringToKind sampleEnv "string" = .ok ⟨"string"⟩ :=
  ⟨(C6_unknown_kind_rejected sampleEnv).1 "nonsense" _ (by rfl) _ _ _,
    (C6_unknown_kind_rejected sampleEnv).2 ⟨"string", none, none, []⟩ ⟨⟨"string"⟩⟩ (by decide)⟩

/-- The list conversion succeeds when every element converts. -/
theorem ConvertList_total (conv : workitem.FieldType → Value → Except GoError Value)
    (ft : workitem.FieldType) (vs : List Value)
    (h : ∀ v ∈ vs, ∃ c, conv ft v = .ok c) :
    ∃ cs, workitem.ConvertList conv ft vs = .ok cs := by
  induction vs with
  | nil => exact ⟨[], rfl⟩
  | cons v vs ih =>
    obtain ⟨c, hc⟩ := h v (List.mem_cons_self _ _)
    obtain ⟨cs, hcs⟩ := ih fun x hx => h x (List.mem_cons_of_mem _ hx)
    exact ⟨c :: cs, by simp [workitem.ConvertList, hc, hcs]⟩

/-- C7: for a wire field type of kind enum with a simple base type, the values
are converted one by one with the converter of the base type. If one of them
fails, the conversion returns an error and nil. If all succeed, the result is
the enum type with that base type whose values are the converted values, one
per input value, in input order. -/
theorem C7_enum_values_converted (env : Env) (w : app.FieldType) (b : String)
    (bt : workitem.Kind)
    (hk : w.Kind = workitem.KindEnum.name) (hb : w.BaseType = some b)
    (hbt : workitem.ConvertStringToKind env b = .ok bt) (hs : bt.IsSimpleType = true) :
    ((∃ v ∈ w.Values, ∃ e, env.ConvertToModel (.simple ⟨bt⟩) v = .error e) →
        ∃ e, convertFieldTypeToModel env w = .err none e) ∧
      ((∀ v ∈ w.Values, ∃ c, env.ConvertToModel (.simple ⟨bt⟩) v = .ok c) →
        ∃ converted,
          convertFieldTypeToModel env w =
              .val (.enum ⟨⟨workitem.KindEnum⟩, ⟨bt⟩, converted⟩) ∧
            List.Forall₂ (fun v c => env.ConvertToModel (.simple ⟨bt⟩) v = .ok c)
              w.Values converted ∧
            converted.length = w.Values.length) := by
  have hEL : workitem.KindEnum ≠ workitem.KindList := by decide
  have hkind : workitem.ConvertStringToKind env w.Kind = .ok workitem.KindEnum := by
    rw [hk]
    exact ConvertStringToKind_enum env
  constructor
  · rintro ⟨v, hv, e, he⟩
    obtain ⟨e2, he2⟩ := ConvertList_error_of_mem
      (fun ft element => env.ConvertToModel ft element) (.simple ⟨bt⟩) w.Values v e hv he
    exact ⟨e2, by
      simp [convertFieldTypeToModel, hkind, hEL, hb, workitem.ConvertAnyToKind, hbt, hs, he2,
        WithStack]⟩
  · intro hall
    obtain ⟨cs, hcs⟩ := ConvertList_total
      (fun ft element => env.ConvertToModel ft element) (.simple ⟨bt⟩) w.Values hall
    have hf := (ConvertList_ok_iff _ _ _ _).mp hcs
    refine ⟨cs, ?_, hf, hf.length_eq.symm⟩
    simp [convertFieldTypeToModel, hkind, hEL, hb, workitem.ConvertAnyToKind, hbt, hs, hcs]

/-- C7, at an enum over integers: with the values 1 and 2 the result holds 1 and
2, and with a string among the values the conversion fails. -/
theorem C7_enum_values_converted_witness :
    (∃ e, convertFieldTypeToModel sampleEnv
        ⟨"enum", none, some "integer", [.num 1, .str "two"]⟩ = .err none e) ∧
      ∃ converted,
        convertFieldTypeToModel sampleEnv ⟨"enum", none, some "integer", [.num 1, .num 2]⟩ =
            .val (.enum ⟨⟨workitem.KindEnum⟩, ⟨⟨"integer"⟩⟩, converted⟩) ∧
          List.Forall₂
            (fun v c => sampleEnv.ConvertToModel (.simple ⟨⟨"integer"⟩⟩) v = .ok c)
            [.num 1, .num 2] converted ∧
          converted.length = [Value.num 1, Value.num 2].length :=
  ⟨(C7_enum_values_converted sampleEnv ⟨"enum", none, some "integer", [.num 1, .str "two"]⟩
      "integer" ⟨"integer"⟩ rfl rfl (by rfl) (by decide)).1
      ⟨.str "two", by simp, _, rfl⟩,
    (C7_enum_values_converted sampleEnv ⟨"enum", none, some "integer", [.num 1, .num 2]⟩
      "integer" ⟨"integer"⟩ rfl rfl (by rfl) (by decide)).2
      (by
        intro v hv
        simp only [List.mem_cons, List.mem_singleton, List.not_mem_nil, or_false] at hv
        rcases hv with rfl | rfl
        · exact ⟨_, rfl⟩
        · exact ⟨_, rfl⟩)⟩

/-! ### The round trip of a field type -/

/-- A value is valid for a base type exactly when the converter of that type
returns a result for it. -/
theorem validValue_iff (env : Env) (base : workitem.SimpleType) (v : Value) :
    validValue env base v = true ↔ ∃ c, env.ConvertToModel (.simple base) v = .ok c := by
  unfold validValue
  cases h : env.ConvertToModel (.simple base) v with
  | error e => simp
  | ok c => simp

/-- Results of a converter that are related one to one to the inputs are the
inputs themselves when the converter returns each input unchanged. -/
theorem forall₂_convert_unchanged (f : Value → Except GoError Value) (vs cs : List Value)
    (h : List.Forall₂ (fun v c => f v = .ok c) vs cs)
    (hfix : ∀ v ∈ vs, f v = .ok v) : cs = vs := by
  induction h with
  | nil => rfl
  | @cons a c l₁ l₂ h1 _ ih =>
    have ha := hfix a (List.mem_cons_self _ _)
    rw [ha] at h1
    cases h1
    rw [ih fun v hv => hfix v (List.mem_cons_of_mem _ hv)]

/-- C4 (against the claim as stated): with a converter that takes the string
`1` for the number 1, the enum over integers with the values `1` (a string) and
2 is valid, every value being accepted, and is converted; converted back it
has the values 1 and 2, both numbers, which are not the values of the wire
type. -/
theorem C4_values_not_preserved :
    (⟨"enum", none, some "integer", [.str "1", .num 2]⟩ : app.FieldType).valid normalisingEnv
        = true ∧
      ∃ m, convertFieldTypeToModel normalisingEnv
            ⟨"enum", none, some "integer", [.str "1", .num 2]⟩ = .val m ∧
        (convertFieldTypeFromModel m).Values = [.num 1, .num 2] ∧
        (convertFieldTypeFromModel m).Values ≠ [.str "1", .num 2] :=
  ⟨by decide, _, rfl, by decide, by decide⟩

/-- C4 (amended): a valid wire field type (a simple kind; or kind list with a
simple component type; or kind enum with a simple base type and values that
the converter of the base type accepts) converts to a model field type, and
converting that back gives the same kind, for a list the same component type,
and for an enum the same base type and, as values, the results of the
converter of the base type, one per value of the wire type and in the same
order. These are the values of the wire type themselves whenever the converter
returns each of them unchanged. -/
theorem C4_field_type_round_trip (env : Env) (w : app.FieldType)
    (h : w.valid env = true) :
    ∃ m, convertFieldTypeToModel env w = .val m ∧
      (convertFieldTypeFromModel m).Kind = w.Kind ∧
      (w.Kind = workitem.KindList.name →
        (convertFieldTypeFromModel m).ComponentType = w.ComponentType) ∧
      (w.Kind = workitem.KindEnum.name →
        (convertFieldTypeFromModel m).BaseType = w.BaseType ∧
          ∃ b, w.BaseType = some b ∧
            List.Forall₂ (fun v c => env.ConvertToModel (.simple ⟨⟨b⟩⟩) v = .ok c)
              w.Values (convertFieldTypeFromModel m).Values ∧
            ((∀ v ∈ w.Values, env.ConvertToModel (.simple ⟨⟨b⟩⟩) v = .ok v) →
              (convertFieldTypeFromModel m).Values = w.Values)) := by
  unfold app.FieldType.valid at h
  cases hk : workitem.ConvertStringToKind env w.Kind with
  | error e => simp [hk] at h
  | ok kind =>
    have hkind := ConvertStringToKind_ok hk
    subst hkind
    simp only [hk] at h
    by_cases hl : (⟨w.Kind⟩ : workitem.Kind) = workitem.KindList
    · simp only [hl, if_true] at h
      cases hc : w.ComponentType with
      | none => simp [hc] at h
      | some ct =>
        simp only [hc] at h
        cases hck : workitem.ConvertStringToKind env ct with
        | error e => simp [hck] at h
        | ok k =>
          simp only [hck] at h
          have hkk := ConvertStringToKind_ok hck
          subst hkk
          have hne : w.Kind ≠ workitem.KindEnum.name := by
            intro he
            have : w.Kind = workitem.KindList.name := congrArg workitem.Kind.name hl
            rw [this] at he
            exact absurd he (by decide)
          refine ⟨.list ⟨⟨⟨w.Kind⟩⟩, ⟨⟨ct⟩⟩⟩, ?_, rfl, fun _ => ?_, fun he => absurd he hne⟩
          · simp [convertFieldTypeToModel, hk, hl, hc, workitem.ConvertAnyToKind, hck, h]
          · simp [convertFieldTypeFromModel, workitem.SimpleType.GetKind, hc]
    · simp only [hl, if_false] at h
      by_cases he : (⟨w.Kind⟩ : workitem.Kind) = workitem.KindEnum
      · simp only [he, if_true] at h
        cases hb : w.BaseType with
        | none => simp [hb] at h
        | some b =>
          simp only [hb] at h
          cases hbk : workitem.ConvertStringToKind env b with
          | error e => simp [hbk] at h
          | ok k =>
            simp only [hbk, Bool.and_eq_true] at h
            have hkk := ConvertStringToKind_ok hbk
            subst hkk
            have hnl : w.Kind ≠ workitem.KindList.name := by
              intro hl2
              exact hl (by cases w; simp_all [workitem.KindList])
            have hall : ∀ v ∈ w.Values,
                ∃ c, env.ConvertToModel (.simple ⟨⟨b⟩⟩) v = .ok c := by
              intro v hv
              exact (validValue_iff env ⟨⟨b⟩⟩ v).mp (List.all_eq_true.mp h.2 v hv)
            obtain ⟨cs, hcs⟩ := ConvertList_total
              (fun ft element => env.ConvertToModel ft element) (.simple ⟨⟨b⟩⟩) w.Values hall
            have hf := (ConvertList_ok_iff _ _ _ _).mp hcs
            refine ⟨.enum ⟨⟨⟨w.Kind⟩⟩, ⟨⟨b⟩⟩, cs⟩, ?_, rfl, fun hl2 => absurd hl2 hnl,
              fun _ => ⟨?_, b, rfl, hf, fun hfix => ?_⟩⟩
            · have hEL : workitem.KindEnum ≠ workitem.KindList := by decide
              simp [convertFieldTypeToModel, hk, he, hEL, hb, workitem.ConvertAnyToKind, hbk,
                h.1, hcs]
            · simp [convertFieldTypeFromModel, workitem.SimpleType.GetKind]
            · exact forall₂_convert_unchanged _ _ _ hf hfix
      · refine ⟨.simple ⟨⟨w.Kind⟩⟩, ?_, rfl, fun hl2 => ?_, fun he2 => ?_⟩
        · simp [convertFieldTypeToModel, hk, hl, he]
        · exact absurd (by rw [hl2]) hl
        · exact absurd (by rw [he2]) he

/-- C4 (amended), at the enum of the spec's example: kind enum, base type
string, values low and high. The sample converter returns strings unchanged,
and the values come back as they were. -/
theorem C4_field_type_round_trip_witness :
    (⟨"enum", none, some "string", [.str "low", .str "high"]⟩ : app.FieldType).valid sampleEnv
        = true ∧
      ∃ m, convertFieldTypeToModel sampleEnv
            ⟨"enum", none, some "string", [.str "low", .str "high"]⟩ = .val m ∧
        (convertFieldTypeFromModel m).Kind = "enum" ∧
        (convertFieldTypeFromModel m).BaseType = some "string" ∧
        (convertFieldTypeFromModel m).Values = [.str "low", .str "high"] := by
  refine ⟨by decide, ?_⟩
  obtain ⟨m, hm, hkind, _, henum⟩ := C4_field_type_round_trip sampleEnv
    ⟨"enum", none, some "string", [.str "low", .str "high"]⟩ (by decide)
  obtain ⟨hbase, b, hb, _, hfix⟩ := henum rfl
  refine ⟨m, hm, hkind, hbase, hfix ?_⟩
  simp only [Option.some.injEq] at hb
  subst hb
  intro v hv
  simp only [List.mem_cons, List.mem_singleton, List.not_mem_nil, or_false] at hv
  rcases hv with rfl | rfl <;> rfl

/-- The field type conversion never returns an error together with a field
type. -/
theorem convertFieldTypeToModel_not_partial (env : Env) (w : app.FieldType)
    (m : workitem.FieldType) (e : GoError) :
    convertFieldTypeToModel env w ≠ .err (some m) e := by
  intro h
  unfold convertFieldTypeToModel at h
  repeat' split at h
  all_goals first
    | cases h
    | (simp only [] at h
       split at h <;> cases h)

/-- A list of a list or enum, and an enum of a list or enum, is refused with an
error and nil. -/
theorem convertFieldTypeToModel_namesNonSimple (env : Env) (w : app.FieldType)
    (h : w.namesNonSimple = true) :
    ∃ e, convertFieldTypeToModel env w = .err none e := by
  have hEL : workitem.KindEnum ≠ workitem.KindList := by decide
  have hl : workitem.ConvertStringToKind env workitem.KindList.name = .ok workitem.KindList :=
    ConvertStringToKind_list env
  have he : workitem.ConvertStringToKind env workitem.KindEnum.name = .ok workitem.KindEnum :=
    ConvertStringToKind_enum env
  have hsl : workitem.KindList.IsSimpleType = false := by decide
  have hse : workitem.KindEnum.IsSimpleType = false := by decide
  simp only [app.FieldType.namesNonSimple, Bool.or_eq_true, Bool.and_eq_true, beq_iff_eq] at h
  rcases h with ⟨hk, hc | hc⟩ | ⟨hk, hc | hc⟩
  · simp [convertFieldTypeToModel, hk, hc, hl, workitem.ConvertAnyToKind, hsl]
  · simp [convertFieldTypeToModel, hk, hc, hl, he, workitem.ConvertAnyToKind, hse]
  · simp [convertFieldTypeToModel, hk, hc, hl, he, hEL, workitem.ConvertAnyToKind, hsl]
  · simp [convertFieldTypeToModel, hk, hc, hl, he, hEL, workitem.ConvertAnyToKind, hse]

/-- A complete wire field type is converted without a panic. -/
theorem convertFieldTypeToModel_complete (env : Env) (w : app.FieldType)
    (h : w.complete = true) : convertFieldTypeToModel env w ≠ .panic := by
  simp only [app.FieldType.complete, Bool.and_eq_true, Bool.or_eq_true, bne_iff_ne, ne_eq,
    Option.isSome_iff_exists] at h
  intro hp
  unfold convertFieldTypeToModel at hp
  cases hk : workitem.ConvertStringToKind env w.Kind with
  | error e => simp [hk] at hp
  | ok kind =>
    have hkind := ConvertStringToKind_ok hk
    subst hkind
    simp only [hk] at hp
    split at hp
    · rename_i hl
      have hname : w.Kind = workitem.KindList.name := congrArg workitem.Kind.name hl
      rcases h.1 with hn | ⟨ct, hct⟩
      · exact hn hname
      · simp only [hct] at hp
        repeat' split at hp
        all_goals cases hp
    · split at hp
      · rename_i he
        have hname : w.Kind = workitem.KindEnum.name := congrArg workitem.Kind.name he
        rcases h.2 with hn | ⟨b, hbt⟩
        · exact hn hname
        · simp only [hbt] at hp
          repeat' split at hp
          all_goals cases hp
      · cases hp

/-- The loop over the field definitions, from any map built so far: it never
returns an error together with a map; when one entry is a list or enum of a
list or enum it does not return a map either; and when moreover every entry is
complete it returns an error and nil. -/
theorem ConvertFieldDefinitionsToModel_loop_rejects (env : Env)
    (fields : List (String × app.FieldDefinition))
    (acc : List (String × workitem.FieldDefinition)) :
    (∀ m e, ConvertFieldDefinitionsToModel.loop env fields acc ≠ .err (some m) e) ∧
      ((∃ entry ∈ fields, ∃ w, entry.2.Type_ = some w ∧ w.namesNonSimple = true) →
        (∀ m, ConvertFieldDefinitionsToModel.loop env fields acc ≠ .val m) ∧
          ((∀ entry ∈ fields, entry.2.complete = true) →
            ∃ e, ConvertFieldDefinitionsToModel.loop env fields acc = .err none e)) := by
  induction fields generalizing acc with
  | nil =>
    refine ⟨fun m e h => (by cases h), ?_⟩
    rintro ⟨entry, hmem, _⟩
    cases hmem
  | cons head rest ih =>
    obtain ⟨field, definition⟩ := head
    unfold ConvertFieldDefinitionsToModel.loop
    cases hT : definition.Type_ with
    | none =>
      refine ⟨fun m e h => (by cases h), fun _ => ⟨fun m h => (by cases h), fun hall => ?_⟩⟩
      have := hall (field, definition) (List.mem_cons_self _ _)
      simp [app.FieldDefinition.complete, hT] at this
    | some ty =>
      simp only []
      cases hc : convertFieldTypeToModel env ty with
      | panic =>
        refine ⟨fun m e h => (by cases h), fun _ => ⟨fun m h => (by cases h), fun hall => ?_⟩⟩
        have hty := hall (field, definition) (List.mem_cons_self _ _)
        simp only [app.FieldDefinition.complete, hT] at hty
        exact absurd hc (convertFieldTypeToModel_complete env ty hty)
      | err p e =>
        exact ⟨fun m e2 h => (by cases h), fun _ => ⟨fun m h => (by cases h), fun _ => ⟨_, rfl⟩⟩⟩
      | val ct =>
        simp only []
        refine ⟨(ih _).1, ?_⟩
        rintro ⟨entry, hmem, w, hw, hbad⟩
        have hrest : ∃ entry ∈ rest, ∃ w, entry.2.Type_ = some w ∧ w.namesNonSimple = true := by
          rcases List.mem_cons.mp hmem with rfl | hin
          · simp only [hT, Option.some.injEq] at hw
            subst hw
            obtain ⟨e, he⟩ := convertFieldTypeToModel_namesNonSimple env ty hbad
            rw [he] at hc
            cases hc
          · exact ⟨entry, hin, w, hw, hbad⟩
        refine ⟨((ih _).2 hrest).1, fun hall => ?_⟩
        exact ((ih _).2 hrest).2 fun x hx => hall x (List.mem_cons_of_mem _ hx)

/-- A wire field type of kind list whose component type, or of kind enum whose
base type, names list or enum is refused: the conversion returns an error and
nil. A map of field definitions that holds such a field, visited in any order,
never yields a map, neither alone nor next to an error; and when every
definition of the map is complete (it has a type, a list names its component
type, an enum names its base type) the conversion returns an error and nil. -/
theorem ConvertFieldDefinitionsToModel_rejects_non_simple (env : Env) :
    (∀ w : app.FieldType, w.namesNonSimple = true →
      ∃ e, convertFieldTypeToModel env w = .err none e) ∧
    (∀ fields : List (String × app.FieldDefinition),
      (∃ entry ∈ fields, ∃ w, entry.2.Type_ = some w ∧ w.namesNonSimple = true) →
        (∀ m, ConvertFieldDefinitionsToModel env fields ≠ .val m) ∧
          (∀ m e, ConvertFieldDefinitionsToModel env fields ≠ .err (some m) e) ∧
          ((∀ entry ∈ fields, entry.2.complete = true) →
            ∃ e, ConvertFieldDefinitionsToModel env fields = .err none e)) := by
  refine ⟨fun w h => convertFieldTypeToModel_namesNonSimple env w h, fun fields hbad => ?_⟩
  have h := ConvertFieldDefinitionsToModel_loop_rejects env fields []
  exact ⟨(h.2 hbad).1, h.1, (h.2 hbad).2⟩

/-- The rejection at a list of lists, and at a map whose second field is an
enum of enums while its first field is a plain string. -/
theorem ConvertFieldDefinitionsToModel_rejects_non_simple_example :
    (∃ e, convertFieldTypeToModel sampleEnv ⟨"list", some "list", none, []⟩ = .err none e) ∧
      ∃ e, ConvertFieldDefinitionsToModel sampleEnv
        [("title", ⟨true, "Title", "", some ⟨"string", none, none, []⟩⟩),
         ("state", ⟨false, "State", "", some ⟨"enum", none, some "enum", []⟩⟩)] =
        .err none e :=
  ⟨(ConvertFieldDefinitionsToModel_rejects_non_simple sampleEnv).1 _ (by decide),
    ((ConvertFieldDefinitionsToModel_rejects_non_simple sampleEnv).2 _
      ⟨("state", ⟨false, "State", "", some ⟨"enum", none, some "enum", []⟩⟩), by simp, _, rfl,
        by decide⟩).2.2 (by decide)⟩

/-- C5 (the code departs from the claim): a map that holds a list of lists is
not answered with an error when the loop first meets a list field that names no
component type: the nil pointer is dereferenced and the conversion panics. The
same map visited in the other order is refused with an error and nil. -/
theorem C5_panic_before_rejection :
    ConvertFieldDefinitionsToModel sampleEnv
        [("tags", ⟨false, "Tags", "", some ⟨"list", none, none, []⟩⟩),
         ("matrix", ⟨false, "Matrix", "", some ⟨"list", some "list", none, []⟩⟩)] = .panic ∧
      ConvertFieldDefinitionsToModel sampleEnv
        [("matrix", ⟨false, "Matrix", "", some ⟨"list", some "list", none, []⟩⟩),
         ("tags", ⟨false, "Tags", "", some ⟨"list", none, none, []⟩⟩)] =
        .err none (.msg "Component type is not list type: *workitem.Kind") := by
  decide

/-! ### List -/

/-- The conversion loop of List keeps the length of the list. -/
theorem convert_length (env : Env) (request : Request) (l : List workitem.WorkItemType) :
    (WorkitemtypeController.List.convert env request l).length = l.length := by
  simp [WorkitemtypeController.List.convert]

/-- The conversion loop of List keeps the order: the identifiers of the entries
are the identifiers of the models, one by one. -/
theorem convert_ids (env : Env) (request : Request) (l : List workitem.WorkItemType) :
    (WorkitemtypeController.List.convert env request l).map (·.ID) =
      l.map fun t => some t.ID := by
  simp [WorkitemtypeController.List.convert, ConvertWorkItemTypeFromModel, Function.comp_def]

/-- The run of List when the filtered list of the requested space is not
empty: one query, and the OK response with the conversion of the filtered
list. -/
theorem list_run_own_types (env : Env) (repo : Repo) (ctx : ListWorkitemtypeContext) (db : DB)
    (start : Option Int) (limit : Int) (orig : List workitem.WorkItemType)
    (hpage : env.parseLimit ctx.Page = .ok (start, limit))
    (hlist : repo.WorkItemTypesList db ctx.SpaceID start limit = .ok orig)
    (hmod : env.notModified ctx.Request
      (orig.filter fun wit => wit.ID ≠ env.SystemPlannerItem) = false)
    (hne : (orig.filter fun wit => wit.ID ≠ env.SystemPlannerItem) ≠ []) :
    WorkitemtypeController.List env repo ctx db =
      ⟨[.listCalled ctx.SpaceID start limit,
        .responded (.OK (WorkitemtypeController.List.convert env ctx.Request
          (orig.filter fun wit => wit.ID ≠ env.SystemPlannerItem)))], .returned, db⟩ := by
  have hlen : (orig.filter fun wit => wit.ID ≠ env.SystemPlannerItem).length ≠ 0 := by
    intro h
    exact hne (List.length_eq_zero.mp h)
  simp only [WorkitemtypeController.List, hpage, Transactional,
    WorkitemtypeController.List.todo, hlist, hmod, hlen, Bool.false_eq_true, if_false]

/-- The run of List when the filtered list of the requested space is empty and
the query of the system space succeeds: two queries with the same offset and
limit, and the OK response with the conversion of the second result. -/
theorem list_run_fallback (env : Env) (repo : Repo) (ctx : ListWorkitemtypeContext) (db : DB)
    (start : Option Int) (limit : Int) (orig fallback : List workitem.WorkItemType)
    (hpage : env.parseLimit ctx.Page = .ok (start, limit))
    (hlist : repo.WorkItemTypesList db ctx.SpaceID start limit = .ok orig)
    (hmod : env.notModified ctx.Request
      (orig.filter fun wit => wit.ID ≠ env.SystemPlannerItem) = false)
    (hempty : (orig.filter fun wit => wit.ID ≠ env.SystemPlannerItem) = [])
    (hfb : repo.WorkItemTypesList db env.SystemSpace start limit = .ok fallback) :
    WorkitemtypeController.List env repo ctx db =
      ⟨[.listCalled ctx.SpaceID start limit, .listCalled env.SystemSpace start limit,
        .responded (.OK (WorkitemtypeController.List.convert env ctx.Request fallback))],
        .returned, db⟩ := by
  have hmod2 := hmod
  rw [hempty] at hmod2
  simp only [WorkitemtypeController.List, hpage, Transactional,
    WorkitemtypeController.List.todo, hlist, hmod2, hempty, hfb, List.length_nil,
    Bool.false_eq_true, if_false, if_true]

/-- Every entry of the conversion carries the identifier of one of the
models. -/
theorem convert_id_mem (env : Env) (request : Request) (l : List workitem.WorkItemType)
    (d : app.WorkItemTypeData) (hd : d ∈ WorkitemtypeController.List.convert env request l) :
    ∃ t ∈ l, d.ID = some t.ID := by
  simp only [WorkitemtypeController.List.convert, List.mem_map] at hd
  obtain ⟨t, ht, rfl⟩ := hd
  exact ⟨t, ht, rfl⟩

/-- On the path without fallback the planner item filter holds: when the
requested space has types left after the filter, no entry of the OK response
has the identifier of the planner item type. -/
theorem list_own_types_without_planner_item (env : Env) (repo : Repo)
    (ctx : ListWorkitemtypeContext) (db : DB)
    (start : Option Int) (limit : Int) (orig : List workitem.WorkItemType)
    (hpage : env.parseLimit ctx.Page = .ok (start, limit))
    (hlist : repo.WorkItemTypesList db ctx.SpaceID start limit = .ok orig)
    (hmod : env.notModified ctx.Request
      (orig.filter fun wit => wit.ID ≠ env.SystemPlannerItem) = false)
    (hne : (orig.filter fun wit => wit.ID ≠ env.SystemPlannerItem) ≠ []) :
    ∀ data, Event.responded (.OK data) ∈ (WorkitemtypeController.List env repo ctx db).events →
      ∀ d ∈ data, d.ID ≠ some env.SystemPlannerItem := by
  intro data hdata d hd
  rw [list_run_own_types env repo ctx db start limit orig hpage hlist hmod hne] at hdata
  simp only [List.mem_cons, List.mem_singleton, List.not_mem_nil, or_false, Event.responded.injEq,
    Response.OK.injEq, reduceCtorEq, false_or] at hdata
  subst hdata
  obtain ⟨t, ht, hid⟩ := convert_id_mem env ctx.Request _ d hd
  have hfilter := (List.mem_filter.mp ht).2
  rw [hid]
  intro heq
  simp only [Option.some.injEq] at heq
  simp [heq] at hfilter

/-- On the fallback path the answer holds every type that the system space
lists, the planner item type included when it is listed. -/
theorem list_fallback_keeps_planner_item (env : Env) (repo : Repo)
    (ctx : ListWorkitemtypeContext) (db : DB)
    (start : Option Int) (limit : Int) (orig fallback : List workitem.WorkItemType)
    (hpage : env.parseLimit ctx.Page = .ok (start, limit))
    (hlist : repo.WorkItemTypesList db ctx.SpaceID start limit = .ok orig)
    (hmod : env.notModified ctx.Request
      (orig.filter fun wit => wit.ID ≠ env.SystemPlannerItem) = false)
    (hempty : (orig.filter fun wit => wit.ID ≠ env.SystemPlannerItem) = [])
    (hfb : repo.WorkItemTypesList db env.SystemSpace start limit = .ok fallback)
    (hplanner : ∃ t ∈ fallback, t.ID = env.SystemPlannerItem) :
    ∃ data, Event.responded (.OK data) ∈ (WorkitemtypeController.List env repo ctx db).events ∧
      ∃ d ∈ data, d.ID = some env.SystemPlannerItem := by
  rw [list_run_fallback env repo ctx db start limit orig fallback hpage hlist hmod hempty hfb]
  refine ⟨WorkitemtypeController.List.convert env ctx.Request fallback, by simp, ?_⟩
  obtain ⟨t, ht, hid⟩ := hplanner
  refine ⟨_, List.mem_map.mpr ⟨t, ht, rfl⟩, ?_⟩
  simp [ConvertWorkItemTypeFromModel, hid]

/-- The queries and the answer of List. When the paging is well formed, the
first query succeeds and the request is not answered Not Modified: if the list
of the requested space is empty after the planner item filter, List queries
the system space with the same start offset and limit as the first query, and
when that query succeeds it answers OK with the result of its conversion loop
on that list; if the filtered list is not empty, there is no second query and
the OK answer is the result of the conversion loop on the filtered list. The
loop keeps length and order. What an entry holds is stated in
`convert_getElem`. -/
theorem list_queries_and_answer (env : Env) (repo : Repo) (ctx : ListWorkitemtypeContext) (db : DB)
    (start : Option Int) (limit : Int) (orig : List workitem.WorkItemType)
    (hpage : env.parseLimit ctx.Page = .ok (start, limit))
    (hlist : repo.WorkItemTypesList db ctx.SpaceID start limit = .ok orig)
    (hmod : env.notModified ctx.Request
      (orig.filter fun wit => wit.ID ≠ env.SystemPlannerItem) = false) :
    ((orig.filter fun wit => wit.ID ≠ env.SystemPlannerItem) = [] →
      ∀ fallback, repo.WorkItemTypesList db env.SystemSpace start limit = .ok fallback →
        (WorkitemtypeController.List env repo ctx db).events =
          [.listCalled ctx.SpaceID start limit, .listCalled env.SystemSpace start limit,
            .responded (.OK (WorkitemtypeController.List.convert env ctx.Request fallback))]) ∧
    ((orig.filter fun wit => wit.ID ≠ env.SystemPlannerItem) ≠ [] →
      (WorkitemtypeController.List env repo ctx db).events =
        [.listCalled ctx.SpaceID start limit,
          .responded (.OK (WorkitemtypeController.List.convert env ctx.Request
            (orig.filter fun wit => wit.ID ≠ env.SystemPlannerItem)))]) ∧
    (∀ l, (WorkitemtypeController.List.convert env ctx.Request l).length = l.length ∧
      (WorkitemtypeController.List.convert env ctx.Request l).map (·.ID) =
        l.map fun t => some t.ID) := by
  refine ⟨fun hempty fallback hfb => ?_, fun hne => ?_, fun l =>
    ⟨convert_length env ctx.Request l, convert_ids env ctx.Request l⟩⟩
  · rw [list_run_fallback env repo ctx db start limit orig fallback hpage hlist hmod hempty
      hfb]
  · rw [list_run_own_types env repo ctx db start limit orig hpage hlist hmod hne]

/-- The queries and the answer of List at the sample space: without types of
its own there are two queries with the same offset and limit; with types of its
own the system space is not queried. -/
theorem list_queries_and_answer_example :
    (WorkitemtypeController.List sampleEnv sampleRepo sampleListContext sampleDB).events =
        [.listCalled sampleSpaceID (some 0) 20, .listCalled sampleEnv.SystemSpace (some 0) 20,
          .responded (.OK (WorkitemtypeController.List.convert sampleEnv sampleRequest
            [sampleType sampleEnv.SystemPlannerItem sampleEnv.SystemSpace 3,
             sampleType sampleEnv.SystemBug sampleEnv.SystemSpace 5]))] ∧
      (WorkitemtypeController.List sampleEnv sampleRepo sampleListContext sampleDB2).events =
        [.listCalled sampleSpaceID (some 0) 20,
          .responded (.OK (WorkitemtypeController.List.convert sampleEnv sampleRequest
            [sampleType sampleEnv.SystemFeature sampleSpaceID 1,
             sampleType sampleEnv.SystemBug sampleSpaceID 2]))] :=
  ⟨(list_queries_and_answer sampleEnv sampleRepo sampleListContext sampleDB (some 0) 20 []
      rfl (by rfl) (by rfl)).1 (by rfl) _ (by rfl),
    (list_queries_and_answer sampleEnv sampleRepo sampleListContext sampleDB2 (some 0) 20
      [sampleType sampleEnv.SystemPlannerItem sampleSpaceID 1,
       sampleType sampleEnv.SystemFeature sampleSpaceID 1,
       sampleType sampleEnv.SystemBug sampleSpaceID 2]
      rfl (by rfl) (by rfl)).2.1 (by decide)⟩

/-! ### Guided child types -/

/-- The conversion takes the guided child types from the `switch` on the type
identifier alone. -/
theorem guidedChildTypesOf_eq (env : Env) (request : Request) (t : workitem.WorkItemType) :
    guidedChildTypesOf env request t = guidedChildTypesFor env t.ID := rfl

/-- The `switch` sets guided child types exactly for the identifiers named in
its cases. -/
theorem guidedChildTypesFor_ne_none_iff (env : Env) (id : UUID) :
    guidedChildTypesFor env id ≠ none ↔ id ∈ guidedParents env := by
  unfold guidedChildTypesFor guidedParents
  split_ifs with h1 h2 h3 h4
  · rcases h1 with h | h | h <;> simp [h]
  · rcases h2 with h | h <;> simp [h]
  · simp [h3]
  · simp [h4]
  · simp only [not_or] at h1 h2
    simp [h1.1, h1.2.1, h1.2.2, h2.1, h2.2, h3, h4]

/-- C9 (against the claim as stated): with nine distinct built-in identifiers
there is no set of five type identifiers that are exactly the ones for which
the conversion sets guided child types: seven identifiers get them. -/
theorem C9_not_exactly_five :
    ¬ ∃ five : List UUID, five.length = 5 ∧
      ∀ t : workitem.WorkItemType,
        guidedChildTypesOf sampleEnv sampleRequest t ≠ none ↔ t.ID ∈ five := by
  rintro ⟨five, hlen, h⟩
  have hsub : guidedParents sampleEnv ⊆ five := by
    intro id hid
    have := (h (sampleType id sampleSpaceID 0)).mp
      (by rw [guidedChildTypesOf_eq]; exact (guidedChildTypesFor_ne_none_iff _ _).mpr hid)
    exact this
  have hnodup : (guidedParents sampleEnv).Nodup := by decide
  have hle := (hnodup.subperm hsub).length_le
  rw [hlen] at hle
  exact absurd hle (by decide)

/-- C9 (amended): when the seven identifiers named in the cases of the `switch`
are distinct, the conversion sets guided child types exactly for these seven
and leaves them nil for every other type identifier. Scenario, fundamental and
papercuts get experience and value proposition; experience and value
proposition get feature and bug; feature gets task and bug; bug gets task; in
this order, each entry with the type `workitemtypes`. The result depends on the
type identifier alone, not on the request or on any other field of the
model. -/
theorem C9_guided_child_types (env : Env) (hd : (guidedParents env).Nodup)
    (request : Request) (t : workitem.WorkItemType) :
    (guidedChildTypesOf env request t ≠ none ↔ t.ID ∈ guidedParents env) ∧
    (t.ID ∈ [env.SystemScenario, env.SystemFundamental, env.SystemPapercuts] →
      guidedChildTypesOf env request t =
        some ⟨[guidedChild env.SystemExperience, guidedChild env.SystemValueProposition]⟩) ∧
    (t.ID ∈ [env.SystemExperience, env.SystemValueProposition] →
      guidedChildTypesOf env request t =
        some ⟨[guidedChild env.SystemFeature, guidedChild env.SystemBug]⟩) ∧
    (t.ID = env.SystemFeature →
      guidedChildTypesOf env request t =
        some ⟨[guidedChild env.SystemTask, guidedChild env.SystemBug]⟩) ∧
    (t.ID = env.SystemBug →
      guidedChildTypesOf env request t = some ⟨[guidedChild env.SystemTask]⟩) ∧
    (∀ (request2 : Request) (t2 : workitem.WorkItemType), t2.ID = t.ID →
      guidedChildTypesOf env request2 t2 = guidedChildTypesOf env request t) := by
  simp only [guidedParents, List.nodup_cons, List.mem_cons, List.mem_singleton,
    List.not_mem_nil, or_false, not_or, List.nodup_nil, and_true, not_false_eq_true] at hd
  obtain ⟨⟨h12, h13, h14, h15, h16, h17⟩, ⟨h23, h24, h25, h26, h27⟩, ⟨h34, h35, h36, h37⟩,
    ⟨h45, h46, h47⟩, ⟨h56, h57⟩, h67⟩ := hd
  refine ⟨?_, ?_, ?_, ?_, ?_, ?_⟩
  · rw [guidedChildTypesOf_eq]
    exact guidedChildTypesFor_ne_none_iff env t.ID
  · intro h
    rw [guidedChildTypesOf_eq]
    simp only [List.mem_cons, List.mem_singleton, List.not_mem_nil, or_false] at h
    simp [guidedChildTypesFor, h, getGuidedChildTypes, guidedChild, APIWorkItemTypes]
  · intro h
    rw [guidedChildTypesOf_eq]
    simp only [List.mem_cons, List.mem_singleton, List.not_mem_nil, or_false] at h
    rcases h with h | h
    · simp [guidedChildTypesFor, h, getGuidedChildTypes, guidedChild, APIWorkItemTypes,
        Ne.symm h14, Ne.symm h24, Ne.symm h34]
    · simp [guidedChildTypesFor, h, getGuidedChildTypes, guidedChild, APIWorkItemTypes,
        Ne.symm h15, Ne.symm h25, Ne.symm h35]
  · intro h
    rw [guidedChildTypesOf_eq]
    simp [guidedChildTypesFor, h, getGuidedChildTypes, guidedChild, APIWorkItemTypes,
      Ne.symm h16, Ne.symm h26, Ne.symm h36, Ne.symm h46, Ne.symm h56]
  · intro h
    rw [guidedChildTypesOf_eq]
    simp [guidedChildTypesFor, h, getGuidedChildTypes, guidedChild, APIWorkItemTypes,
      Ne.symm h17, Ne.symm h27, Ne.symm h37, Ne.symm h47, Ne.symm h57, Ne.symm h67]
  · intro request2 t2 h
    rw [guidedChildTypesOf_eq, guidedChildTypesOf_eq, h]

/-- C9 (amended), with the sample identifiers: they are distinct, the feature
type gets task and bug, and the task type gets nothing. -/
theorem C9_guided_child_types_witness :
    (guidedParents sampleEnv).Nodup ∧
      guidedChildTypesOf sampleEnv sampleRequest
          (sampleType sampleEnv.SystemFeature sampleSpaceID 1) =
        some ⟨[guidedChild sampleEnv.SystemTask, guidedChild sampleEnv.SystemBug]⟩ ∧
      guidedChildTypesOf sampleEnv sampleRequest
          (sampleType sampleEnv.SystemTask sampleSpaceID 1) = none :=
  ⟨by decide,
    (C9_guided_child_types sampleEnv (by decide) sampleRequest
      (sampleType sampleEnv.SystemFeature sampleSpaceID 1)).2.2.2.1 rfl,
    not_not.mp (mt
      (C9_guided_child_types sampleEnv (by decide) sampleRequest
        (sampleType sampleEnv.SystemTask sampleSpaceID 1)).1.mp (by decide))⟩

/-! ### Create by the space owner -/

/-- C10 (the code departs from the claim): requests by the owner of the sample
space that end in a panic, after the space has been loaded and before anything
is answered. First a payload without relationships and without fields: the
field conversion succeeds and the space relationship is dereferenced through
the nil pointer. Then a payload with relationships and a list field that names
no component type; a field whose definition is nil; a field definition without
a type; and an enum field that names no base type. -/
theorem C10_create_panics :
    WorkitemtypeController.Create sampleEnv sampleRepo
        (sampleCreateContext (some sampleOwner, none) (samplePayload [] none)) sampleDB =
      ⟨[.spaceLoaded sampleSpaceID], .panicked, sampleDB⟩ ∧
    WorkitemtypeController.Create sampleEnv sampleRepo
        (sampleCreateContext (some sampleOwner, none)
          (samplePayload [("tags", some ⟨false, "Tags", "", some ⟨"list", none, none, []⟩⟩)]
            (some ⟨none, none⟩))) sampleDB =
      ⟨[.spaceLoaded sampleSpaceID], .panicked, sampleDB⟩ ∧
    WorkitemtypeController.Create sampleEnv sampleRepo
        (sampleCreateContext (some sampleOwner, none)
          (samplePayload [("tags", none)] (some ⟨none, none⟩))) sampleDB =
      ⟨[.spaceLoaded sampleSpaceID], .panicked, sampleDB⟩ ∧
    WorkitemtypeController.Create sampleEnv sampleRepo
        (sampleCreateContext (some sampleOwner, none)
          (samplePayload [("tags", some ⟨false, "Tags", "", none⟩)] (some ⟨none, none⟩)))
        sampleDB =
      ⟨[.spaceLoaded sampleSpaceID], .panicked, sampleDB⟩ ∧
    WorkitemtypeController.Create sampleEnv sampleRepo
        (sampleCreateContext (some sampleOwner, none)
          (samplePayload [("state", some ⟨false, "State", "", some ⟨"enum", none, none, []⟩⟩)]
            (some ⟨none, none⟩))) sampleDB =
      ⟨[.spaceLoaded sampleSpaceID], .panicked, sampleDB⟩ := by
  decide

/-- The owner of the sample space creates a type with an enum field over
strings and the relationships present: the type is stored and answered
Created. -/
theorem create_by_owner_example :
    ∃ wit location db2,
      WorkitemtypeController.Create sampleEnv sampleRepo
          (sampleCreateContext (some sampleOwner, none)
            (samplePayload
              [("priority", some ⟨false, "Priority", "",
                some ⟨"enum", none, some "string", [.str "low", .str "high"]⟩⟩)]
              (some ⟨none, none⟩))) sampleDB =
        ⟨[.spaceLoaded sampleSpaceID,
          .createCalled
            { spaceID := sampleSpaceID, id := none, extendedTypeName := none, name := "epic",
              description := none, icon := "fa",
              fields := [("priority", ⟨false, "Priority", "",
                .enum ⟨⟨workitem.KindEnum⟩, ⟨⟨"string"⟩⟩, [.str "low", .str "high"]⟩⟩)] },
          .responded (.Created wit location)], .returned, db2⟩ ∧
      db2.workItemTypes.length = sampleDB.workItemTypes.length + 1 :=
  ⟨_, _, _, rfl, rfl⟩

/-! ### The conversion of a work item type, alone and in List -/

/-- The conversion of one model: the type `workitemtypes`, the identifier,
name, description, icon and version of the model, the space relationship for
the space of the model, and one field per field of the model, under the same
key and in the same place, with the label, description and required flag of
the model definition and the converted field type. -/
theorem ConvertWorkItemTypeFromModel_content (env : Env) (request : Request)
    (t : workitem.WorkItemType) :
    (ConvertWorkItemTypeFromModel env request t).Type_ = "workitemtypes" ∧
    (ConvertWorkItemTypeFromModel env request t).ID = some t.ID ∧
    ∃ a r sp d,
      (ConvertWorkItemTypeFromModel env request t).Attributes = some a ∧
      (ConvertWorkItemTypeFromModel env request t).Relationships = some r ∧
      a.Name = t.Name ∧ a.Description = t.Description ∧ a.Icon = t.Icon ∧
      a.Version = some t.Version ∧
      r.Space = some sp ∧ sp.Data = some d ∧ d.ID = some t.SpaceID ∧
      a.Fields.map (·.1) = t.Fields.map (·.1) ∧
      a.Fields = t.Fields.map fun entry =>
        (entry.1, some
          { Required := entry.2.Required
            Label := entry.2.Label
            Description := entry.2.Description
            Type_ := some (convertFieldTypeFromModel entry.2.Type_) }) := by
  refine ⟨rfl, rfl, _, _, _, _, rfl, rfl, rfl, rfl, rfl, rfl, rfl, rfl, rfl, ?_, ?_⟩
  · simp [Function.comp_def]
  · exact List.map_congr_left fun entry _ => by cases entry; rfl

/-- Entry by entry, the conversion loop of List gives the conversion of the
model at that place, except for the version: every entry shows the version of
the last model of the list. -/
theorem convert_getElem (env : Env) (request : Request) (l : List workitem.WorkItemType)
    (i : Nat) (h : i < l.length) :
    (WorkitemtypeController.List.convert env request l)[i]? =
      some { ConvertWorkItemTypeFromModel env request l[i] with
        Attributes := (ConvertWorkItemTypeFromModel env request l[i]).Attributes.map fun a =>
          { a with Version := l.getLast?.map (·.Version) } } := by
  simp [WorkitemtypeController.List.convert, List.getElem?_map, List.getElem?_eq_getElem h]

/-- The conversion loop of List is the element-wise conversion exactly when
every model of the list has the version of the last one. -/
theorem convert_eq_map_iff (env : Env) (request : Request) (l : List workitem.WorkItemType) :
    WorkitemtypeController.List.convert env request l =
        l.map (ConvertWorkItemTypeFromModel env request) ↔
      ∀ t ∈ l, some t.Version = l.getLast?.map (·.Version) := by
  unfold WorkitemtypeController.List.convert
  rw [List.map_inj_left]
  constructor
  · intro hall t ht
    have := hall t ht
    simp only [ConvertWorkItemTypeFromModel, Option.map_some', app.WorkItemTypeData.mk.injEq,
      Option.some.injEq, app.WorkItemTypeAttributes.mk.injEq, true_and, and_true] at this
    exact this.symm
  · intro hall t ht
    have := hall t ht
    simp only [ConvertWorkItemTypeFromModel, Option.map_some', ← this]

/-- C11 (the code departs from the claim): the sample space lists the feature
type with version 1 and the bug type with version 2. List answers two entries in
this order. The second is the conversion of the bug type. The first is not the
conversion of the feature type: it shows version 2, the version of the last
model, where the conversion of the feature type has version 1. -/
theorem C11_list_entries_share_last_version :
    ∃ first second,
      (WorkitemtypeController.List sampleEnv sampleRepo sampleListContext sampleDB2).events =
        [.listCalled sampleSpaceID (some 0) 20, .responded (.OK [first, second])] ∧
      first ≠ ConvertWorkItemTypeFromModel sampleEnv sampleRequest
        (sampleType sampleEnv.SystemFeature sampleSpaceID 1) ∧
      first.Attributes.bind (·.Version) = some 2 ∧
      (ConvertWorkItemTypeFromModel sampleEnv sampleRequest
        (sampleType sampleEnv.SystemFeature sampleSpaceID 1)).Attributes.bind (·.Version) =
          some 1 ∧
      first.ID = some sampleEnv.SystemFeature ∧
      second = ConvertWorkItemTypeFromModel sampleEnv sampleRequest
        (sampleType sampleEnv.SystemBug sampleSpaceID 2) :=
  ⟨_, _, rfl, by decide, by decide, by decide, by decide, by decide⟩

/-- C8 (the code departs from the claim): the sample space has no types of its
own, and the system space lists the planner item type with version 3 and the
bug type with version 5. List queries the system space with the offset and
limit of the first query and answers two entries in the order of that list.
The answer is not the conversion of the list: the first entry shows version 5,
the version of the last model, where the conversion of the first model has
version 3. -/
theorem C8_fallback_answer_not_the_conversion :
    sampleRepo.WorkItemTypesList sampleDB sampleEnv.SystemSpace (some 0) 20 =
        .ok [sampleType sampleEnv.SystemPlannerItem sampleEnv.SystemSpace 3,
          sampleType sampleEnv.SystemBug sampleEnv.SystemSpace 5] ∧
      ∃ first second,
        (WorkitemtypeController.List sampleEnv sampleRepo sampleListContext sampleDB).events =
          [.listCalled sampleSpaceID (some 0) 20,
            .listCalled sampleEnv.SystemSpace (some 0) 20,
            .responded (.OK [first, second])] ∧
        [first, second] ≠
          [sampleType sampleEnv.SystemPlannerItem sampleEnv.SystemSpace 3,
            sampleType sampleEnv.SystemBug sampleEnv.SystemSpace 5].map
              (ConvertWorkItemTypeFromModel sampleEnv sampleRequest) ∧
        first.Attributes.bind (·.Version) = some 5 ∧
        (ConvertWorkItemTypeFromModel sampleEnv sampleRequest
          (sampleType sampleEnv.SystemPlannerItem sampleEnv.SystemSpace 3)).Attributes.bind
            (·.Version) = some 3 ∧
        second = ConvertWorkItemTypeFromModel sampleEnv sampleRequest
          (sampleType sampleEnv.SystemBug sampleEnv.SystemSpace 5) :=
  ⟨rfl, _, _, rfl, by decide, by decide, by decide, by decide⟩

end Wit
